import Mathlib

/-!
Shallow embedding of `src/main.py` of the sandb_contract_bot repository:
a messaging bot that records, per user, which contract addresses to track
on which network, in a remote key-value store.

The store node `/users/<userId>` is modelled as a function
`Nat → Option UserRecord`; a `UserRecord` is an ordered association list
of network name to address list, mirroring a Python dict with insertion
order.  The per-conversation state `context.user_data` holding the
pending network choice under its `network` key is modelled as
`Nat → Option String`.  Each
handler is a pure function from state (plus the event data) to the new
state paired with the reply it sends.
-/

namespace ContractBot

/-- A per-user record: Python dict from network name to list of tracked
addresses, in insertion order. -/
abbrev UserRecord := List (String × List String)

/-- One outbound message: a plain text reply, a reply carrying an inline
keyboard of (label, callback data) buttons, or an edit of the previous
message. -/
inductive Reply where
  | text (s : String) : Reply
  | menu (prompt : String) (choices : List (String × String)) : Reply
  | editText (s : String) : Reply
deriving DecidableEq, Repr

/-- The whole mutable state the handlers touch: the Firebase node
`/users` (keyed by user id) and the per-user conversation data holding
the pending network selection. -/
structure BotState where
  store : Nat → Option UserRecord
  pending : Nat → Option String

/-- Pointwise update of a keyed function, used for `set`/`delete` on the
store and for writing `context.user_data` of one user. -/
def updFn {α : Type} (f : Nat → Option α) (k : Nat) (v : Option α) :
    Nat → Option α :=
  fun u => if u = k then v else f u

/-- Models `ref.child(str(user_id)).get()` : read the full record or
absent. -/
def storeRead (st : Nat → Option UserRecord) (uid : Nat) :
    Option UserRecord :=
  st uid

/-- Models `ref.child(str(user_id)).set(user_data)` : full overwrite. -/
def storeWrite (st : Nat → Option UserRecord) (uid : Nat)
    (r : UserRecord) : Nat → Option UserRecord :=
  updFn st uid (some r)

/-- Models `ref.child(str(user_id)).delete()` : remove the key
entirely. -/
def storeDelete (st : Nat → Option UserRecord) (uid : Nat) :
    Nat → Option UserRecord :=
  updFn st uid none

/-- Python `str.capitalize()` : first character uppercased, the rest
lowercased (ASCII suffices for the strings this program builds). -/
def pyCapitalize (s : String) : String :=
  match s.data with
  | [] => ""
  | c :: cs => String.mk (c.toUpper :: cs.map Char.toLower)

/-- `user_data.setdefault(network, []).append(contract_address)` on a
Python dict: append the address to the list already stored under the
network if the key is present, otherwise insert the key at the end of
the dict with a one-element list. -/
def appendAddr : UserRecord → String → String → UserRecord
  | [], net, addr => [(net, [addr])]
  | (n, cs) :: rest, net, addr =>
    if n = net then (n, cs ++ [addr]) :: rest
    else (n, cs) :: appendAddr rest net addr

/-- Handler of `/start`. -/
def start (s : BotState) (_uid : Nat) : BotState × Reply :=
  (s, Reply.text
    ("Welcome to the Blockchain Tracker Bot! Use /track to monitor transactions. "
      ++ "Use /help for other commands."))

/-- Handler of `/help`. -/
def help_command (s : BotState) (_uid : Nat) : BotState × Reply :=
  (s, Reply.text
    ("/start - Start the bot\n"
      ++ "/track - Start tracking a contract address\n"
      ++ "/status - View tracked addresses\n"
      ++ "/stop - Stop tracking a contract\n"
      ++ "/help - Show help message"))

/-- Handler of `/track` : reply with the two-button network selector;
no state is touched. -/
def track (s : BotState) (_uid : Nat) : BotState × Reply :=
  (s, Reply.menu "Which network would you like to track?"
    [("Solana", "solana"), ("Sui", "sui")])

/-- Handler of a button callback: store the callback data in
`context.user_data` under the key `network` and edit the prompt. -/
def handle_network_selection (s : BotState) (uid : Nat) (data : String) :
    BotState × Reply :=
  ({ s with pending := updFn s.pending uid (some data) },
   Reply.editText ("You selected " ++ pyCapitalize data
      ++ ". Please send the contract address you want to track."))

/-- Handler of a free-text message.  The source reads `network` from
`context.user_data`; the guard `if not network:` fires when the value
is absent or is the empty string (both are falsy in Python).
Otherwise the record is read with a fallback to the empty dict on any
falsy result, the address appended under the pending network, and the
full record written back. -/
def handle_contract_address (s : BotState) (uid : Nat) (txt : String) :
    BotState × Reply :=
  match s.pending uid with
  | none => (s, Reply.text "Please select a network first using /track.")
  | some network =>
    if network = "" then
      (s, Reply.text "Please select a network first using /track.")
    else
      let user_data := (storeRead s.store uid).getD []
      let user_data := appendAddr user_data network txt
      ({ s with store := storeWrite s.store uid user_data },
       Reply.text ("Started tracking contract address: " ++ txt
          ++ " on " ++ pyCapitalize network ++ "."))

/-- The body built for one dict entry by the `/status` loop. -/
def renderEntry (p : String × List String) : String :=
  "\n" ++ pyCapitalize p.1 ++ ":\n" ++ String.intercalate "\n" p.2 ++ "\n"

/-- The full `/status` listing text for a nonempty record. -/
def renderStatus (ud : UserRecord) : String :=
  "Currently tracked contracts:\n" ++ String.join (ud.map renderEntry)

/-- Handler of `/status` : `if not user_data:` is true for an absent
record and for an empty dict; otherwise the listing is rendered. -/
def status (s : BotState) (uid : Nat) : BotState × Reply :=
  match storeRead s.store uid with
  | none => (s, Reply.text "You are not tracking any contracts.")
  | some ud =>
    if ud = [] then (s, Reply.text "You are not tracking any contracts.")
    else (s, Reply.text (renderStatus ud))

/-- Handler of `/stop` : delete the node unconditionally and confirm. -/
def stop (s : BotState) (uid : Nat) : BotState × Reply :=
  ({ s with store := storeDelete s.store uid },
   Reply.text "Stopped tracking all contracts.")

/-- One inbound event from the transport, as dispatched in `main`. -/
inductive Event where
  | cmdStart : Event
  | cmdHelp : Event
  | cmdTrack : Event
  | cmdStatus : Event
  | cmdStop : Event
  | callback (data : String) : Event
  | text (msg : String) : Event
deriving DecidableEq, Repr

/-- Dispatch of one event to its handler, as wired up in `main`. -/
def step (s : BotState) (uid : Nat) : Event → BotState × Reply
  | Event.cmdStart => start s uid
  | Event.cmdHelp => help_command s uid
  | Event.cmdTrack => track s uid
  | Event.cmdStatus => status s uid
  | Event.cmdStop => stop s uid
  | Event.callback d => handle_network_selection s uid d
  | Event.text t => handle_contract_address s uid t

/-- Run a sequence of events of one user, keeping the final state. -/
def run (s : BotState) (uid : Nat) (es : List Event) : BotState :=
  es.foldl (fun t e => (step t uid e).1) s

/-- The state at process start: empty store, no pending selection. -/
def initState : BotState :=
  { store := fun _ => none, pending := fun _ => none }

/-- Observation helper: split a character list at newlines. -/
def linesAux : List Char → List Char → List (List Char)
  | [], acc => [acc.reverse]
  | c :: cs, acc =>
    if c = '\n' then acc.reverse :: linesAux cs []
    else linesAux cs (c :: acc)

/-- Observation helper: the lines of a string, in order. -/
def lines (s : String) : List String :=
  (linesAux s.data []).map String.mk

/-! ## General lemmas about the embedded operations -/

/-- The status handler returns the state it was given, in every
branch. -/
theorem status_state_eq (s : BotState) (uid : Nat) :
    (status s uid).1 = s := by
  cases h : storeRead s.store uid with
  | none => simp [status, h]
  | some ud => by_cases hud : ud = [] <;> simp [status, h, hud]

theorem updFn_same {α : Type} (f : Nat → Option α) (k : Nat)
    (v : Option α) : updFn f k v k = v := by
  simp [updFn]

theorem run_append (s : BotState) (uid : Nat) (xs ys : List Event) :
    run s uid (xs ++ ys) = run (run s uid xs) uid ys := by
  simp [run]

theorem run_cons (s : BotState) (uid : Nat) (e : Event)
    (es : List Event) :
    run s uid (e :: es) = run (step s uid e).1 uid es := rfl

/-- One free-text step under a nonempty pending selection: the pending
state is untouched and the record of this user becomes the old one
(empty if absent) with the address appended under the network. -/
theorem handle_text_step (s : BotState) (uid : Nat) (n t : String)
    (hp : s.pending uid = some n) (hn : n ≠ "") :
    (handle_contract_address s uid t).1.pending = s.pending ∧
    storeRead (handle_contract_address s uid t).1.store uid
      = some (appendAddr ((storeRead s.store uid).getD []) n t) := by
  simp [handle_contract_address, hp, hn, storeRead, storeWrite, updFn]

/-- Appending under a key not present in the record inserts the key at
the end. -/
theorem appendAddr_new_key (r : UserRecord) (n a : String)
    (h : n ∉ r.map Prod.fst) :
    appendAddr r n a = r ++ [(n, [a])] := by
  induction r with
  | nil => rfl
  | cons p rest ih =>
    obtain ⟨m, cs⟩ := p
    simp only [List.map_cons, List.mem_cons] at h
    push_neg at h
    simp [appendAddr, Ne.symm h.1, ih h.2]

/-- Appending under the last key of the record extends its list. -/
theorem appendAddr_last_key (r : UserRecord) (n : String)
    (cs : List String) (a : String) (h : n ∉ r.map Prod.fst) :
    appendAddr (r ++ [(n, cs)]) n a = r ++ [(n, cs ++ [a])] := by
  induction r with
  | nil => simp [appendAddr]
  | cons p rest ih =>
    obtain ⟨m, ds⟩ := p
    simp only [List.map_cons, List.mem_cons] at h
    push_neg at h
    simp [appendAddr, Ne.symm h.1, ih h.2]

/-- Folding a sequence of appends under the last key of the record
concatenates the whole sequence onto its list. -/
theorem foldl_appendAddr_last (n : String) :
    ∀ (as : List String) (r : UserRecord) (cs : List String),
      n ∉ r.map Prod.fst →
      as.foldl (fun t a => appendAddr t n a) (r ++ [(n, cs)])
        = r ++ [(n, cs ++ as)] := by
  intro as
  induction as with
  | nil => intro r cs _; simp
  | cons a as ih =>
    intro r cs h
    rw [List.foldl_cons, appendAddr_last_key r n cs a h,
      ih r (cs ++ [a]) h]
    simp

/-- Running a list of free-text events under a fixed nonempty pending
selection, starting from a state where the record is present, folds the
appends over the record and preserves the pending state. -/
theorem run_texts (uid : Nat) (n : String) (hn : n ≠ "") :
    ∀ (as : List String) (s : BotState) (r : UserRecord),
      s.pending uid = some n → storeRead s.store uid = some r →
      (run s uid (as.map Event.text)).pending = s.pending ∧
      storeRead (run s uid (as.map Event.text)).store uid
        = some (as.foldl (fun t a => appendAddr t n a) r) := by
  intro as
  induction as with
  | nil =>
    intro s r hp hr
    exact ⟨rfl, by simpa [run] using hr⟩
  | cons a as ih =>
    intro s r hp hr
    have h1 := handle_text_step s uid n a hp hn
    rw [hr] at h1
    have hp1 : (handle_contract_address s uid a).1.pending uid = some n := by
      rw [h1.1]; exact hp
    have h2 := ih (handle_contract_address s uid a).1
      (appendAddr r n a) hp1 h1.2
    refine ⟨?_, ?_⟩
    · rw [List.map_cons, run_cons]
      exact h2.1.trans h1.1
    · rw [List.map_cons, run_cons]
      exact h2.2

/-- Running a nonempty list of free-text events under a fixed nonempty
pending selection, starting from a state with no record, creates the
record with exactly that network and address list. -/
theorem run_texts_fresh (uid : Nat) (n : String) (hn : n ≠ "")
    (s : BotState) (a : String) (as : List String)
    (hp : s.pending uid = some n)
    (h0 : storeRead s.store uid = none) :
    (run s uid ((a :: as).map Event.text)).pending = s.pending ∧
    storeRead (run s uid ((a :: as).map Event.text)).store uid
      = some [(n, a :: as)] := by
  have h1 := handle_text_step s uid n a hp hn
  rw [h0] at h1
  have hr1 : storeRead (handle_contract_address s uid a).1.store uid
      = some [(n, [a])] := h1.2
  have hp1 : (handle_contract_address s uid a).1.pending uid = some n := by
    rw [h1.1]; exact hp
  have h2 := run_texts uid n hn as (handle_contract_address s uid a).1
    [(n, [a])] hp1 hr1
  have h3 := foldl_appendAddr_last n as [] [a] (by simp)
  simp only [List.nil_append, List.singleton_append] at h3
  refine ⟨?_, ?_⟩
  · rw [List.map_cons, run_cons]
    exact h2.1.trans h1.1
  · rw [List.map_cons, run_cons]
    exact h2.2.trans (congrArg some h3)

/-- Running a nonempty list of free-text events under pending network
`n2`, starting from a record holding only a distinct network `n1`,
inserts `n2` after `n1` with exactly the submitted addresses. -/
theorem run_texts_second (uid : Nat) (n1 n2 : String) (hn2 : n2 ≠ "")
    (h12 : n1 ≠ n2) (s : BotState) (xs : List String) (b : String)
    (bs : List String) (hp : s.pending uid = some n2)
    (h0 : storeRead s.store uid = some [(n1, xs)]) :
    storeRead (run s uid ((b :: bs).map Event.text)).store uid
      = some [(n1, xs), (n2, b :: bs)] := by
  have hne : n2 ∉ ([(n1, xs)] : UserRecord).map Prod.fst := by
    simp [Ne.symm h12]
  have h1 := handle_text_step s uid n2 b hp hn2
  rw [h0] at h1
  have hr1 : storeRead (handle_contract_address s uid b).1.store uid
      = some [(n1, xs), (n2, [b])] := by
    rw [h1.2]
    simp [appendAddr_new_key [(n1, xs)] n2 b hne]
  have hp1 : (handle_contract_address s uid b).1.pending uid = some n2 := by
    rw [h1.1]; exact hp
  have h2 := run_texts uid n2 hn2 bs (handle_contract_address s uid b).1
    [(n1, xs), (n2, [b])] hp1 hr1
  have h3 := foldl_appendAddr_last n2 bs [(n1, xs)] [b] hne
  simp only [List.singleton_append, List.cons_append,
    List.nil_append] at h3
  rw [List.map_cons, run_cons]
  exact h2.2.trans (congrArg some h3)

/-! ## The claims -/

/-- C1: for every user and every pair of distinct nonempty networks
with nonempty address sequences, submitting the first sequence to the
first network and then the second sequence to the second network, via
the selection callback followed by free-text messages, yields a read
of exactly the two-entry mapping with both address lists in submission
order, duplicates kept. -/
theorem submit_two_networks (s : BotState) (uid : Nat) (n1 n2 : String)
    (as bs : List String)
    (h0 : storeRead s.store uid = none)
    (hn1 : n1 ≠ "") (hn2 : n2 ≠ "") (h12 : n1 ≠ n2)
    (ha : as ≠ []) (hb : bs ≠ []) :
    storeRead (run s uid (Event.callback n1 :: as.map Event.text
        ++ Event.callback n2 :: bs.map Event.text)).store uid
      = some [(n1, as), (n2, bs)] := by
  obtain ⟨a, as, rfl⟩ : ∃ x t, as = x :: t := by
    cases as with
    | nil => exact absurd rfl ha
    | cons x t => exact ⟨x, t, rfl⟩
  obtain ⟨b, bs, rfl⟩ : ∃ x t, bs = x :: t := by
    cases bs with
    | nil => exact absurd rfl hb
    | cons x t => exact ⟨x, t, rfl⟩
  have hs1p : (handle_network_selection s uid n1).1.pending uid
      = some n1 := by
    simp [handle_network_selection, updFn]
  have hA := run_texts_fresh uid n1 hn1
    (handle_network_selection s uid n1).1 a as hs1p h0
  have hs2p : (handle_network_selection
      (run (handle_network_selection s uid n1).1 uid
        (List.map Event.text (a :: as))) uid n2).1.pending uid
      = some n2 := by
    simp [handle_network_selection, updFn]
  have hB := run_texts_second uid n1 n2 hn2 h12
    (handle_network_selection
      (run (handle_network_selection s uid n1).1 uid
        (List.map Event.text (a :: as))) uid n2).1
    (a :: as) b bs hs2p hA.2
  rw [run_append]
  exact hB

/-- C1 witness at a concrete run. -/
theorem submit_two_networks_witness :
    storeRead (run initState 5 (Event.callback "solana"
        :: ["A1", "A2"].map Event.text
        ++ Event.callback "sui" :: ["B1"].map Event.text)).store 5
      = some [("solana", ["A1", "A2"]), ("sui", ["B1"])] :=
  submit_two_networks initState 5 "solana" "sui" ["A1", "A2"] ["B1"]
    rfl (by decide) (by decide) (by decide) (by decide) (by decide)

/-- C2: a free-text message in a conversation with no pending network
selection leaves the whole state (in particular the store) unchanged
and replies with the instruction to run the track flow first. -/
theorem text_without_selection_is_noop (s : BotState) (uid : Nat)
    (txt : String) (h : s.pending uid = none) :
    (handle_contract_address s uid txt).1 = s ∧
    (handle_contract_address s uid txt).2 =
      Reply.text "Please select a network first using /track." := by
  simp [handle_contract_address, h]

/-- C2 witness at a concrete state. -/
theorem text_without_selection_is_noop_witness :
    (handle_contract_address initState 5 "ABC").1 = initState ∧
    (handle_contract_address initState 5 "ABC").2 =
      Reply.text "Please select a network first using /track." :=
  text_without_selection_is_noop initState 5 "ABC" rfl

/-- C3: the status handler never changes the state; with no record it
replies that nothing is tracked, with a nonempty record it replies with
the rendered listing; and in the concrete track-solana-ABC123 scenario
the reply is the rendering whose lines place the line Solana: directly
before the line ABC123. -/
theorem status_reads_and_renders (s : BotState) (uid : Nat) :
    (status s uid).1 = s ∧
    (storeRead s.store uid = none →
      (status s uid).2 = Reply.text "You are not tracking any contracts.") ∧
    (∀ ud, storeRead s.store uid = some ud → ud ≠ [] →
      (status s uid).2 = Reply.text (renderStatus ud)) ∧
    (status (run initState 5
        [Event.cmdTrack, Event.callback "solana", Event.text "ABC123"]) 5).2
      = Reply.text (renderStatus [("solana", ["ABC123"])]) ∧
    lines (renderStatus [("solana", ["ABC123"])])
      = ["Currently tracked contracts:", "", "Solana:", "ABC123", ""] := by
  refine ⟨status_state_eq s uid, ?_, ?_, ?_, ?_⟩
  · intro h
    simp [status, h]
  · intro ud h hud
    simp [status, h, hud]
  · rfl
  · rfl

/-- C3 witness: the no-record branch of the theorem at a concrete
state. -/
theorem status_reads_and_renders_witness :
    (status initState 7).2 = Reply.text "You are not tracking any contracts." :=
  (status_reads_and_renders initState 7).2.1 rfl

/-- C4: with no existing record and a pending nonempty network, a
free-text submission creates the record as exactly that network with
the one address; and no event other than a free-text message makes a
record appear for this user. -/
theorem record_created_lazily (s : BotState) (uid : Nat) (n addr : String)
    (h0 : storeRead s.store uid = none) (hp : s.pending uid = some n)
    (hn : n ≠ "") :
    storeRead (handle_contract_address s uid addr).1.store uid
      = some [(n, [addr])] ∧
    ∀ e : Event, (∀ t, e ≠ Event.text t) →
      storeRead (step s uid e).1.store uid = none := by
  constructor
  · have h1 := (handle_text_step s uid n addr hp hn).2
    rw [h0] at h1
    simpa [appendAddr] using h1
  · intro e he
    cases e with
    | cmdStart => exact h0
    | cmdHelp => exact h0
    | cmdTrack => exact h0
    | cmdStatus =>
      simp only [step]
      rw [status_state_eq s uid]
      exact h0
    | cmdStop => simp [step, stop, storeRead, storeDelete, updFn]
    | callback d => exact h0
    | text t => exact absurd rfl (he t)

/-- C4 witness at a concrete state and event. -/
theorem record_created_lazily_witness :
    storeRead (handle_contract_address
        { store := fun _ => none, pending := fun _ => some "sui" } 5
        "ADDR").1.store 5 = some [("sui", ["ADDR"])] ∧
    storeRead (step
        { store := fun _ => none, pending := fun _ => some "sui" } 5
        Event.cmdTrack).1.store 5 = none := by
  have h := record_created_lazily
    { store := fun _ => none, pending := fun _ => some "sui" } 5 "sui"
    "ADDR" rfl rfl (by decide)
  exact ⟨h.1, h.2 Event.cmdTrack (by intro t h; cases h)⟩

/-- C5: the stop handler always replies with the fixed confirmation and
removes the record; running it a second time straight after produces
the same confirmation and leaves the store identical, so it is
idempotent and safe on an absent record. -/
theorem stop_idempotent_and_confirms (s : BotState) (uid : Nat) :
    (stop s uid).2 = Reply.text "Stopped tracking all contracts." ∧
    storeRead (stop s uid).1.store uid = none ∧
    (stop (stop s uid).1 uid).2 =
      Reply.text "Stopped tracking all contracts." ∧
    (stop (stop s uid).1 uid).1.store = (stop s uid).1.store := by
  refine ⟨rfl, ?_, rfl, ?_⟩
  · simp [stop, storeRead, storeDelete, updFn]
  · funext u
    by_cases h : u = uid <;> simp [stop, storeDelete, updFn, h]

/-- C6: deleting the key of a user and then reading it yields absent,
whatever was stored before; in particular right after the stop handler
the read is absent rather than an emptied record. -/
theorem delete_then_read_absent (st : Nat → Option UserRecord)
    (s : BotState) (uid : Nat) :
    storeRead (storeDelete st uid) uid = none ∧
    storeRead (stop s uid).1.store uid = none := by
  constructor
  · simp [storeRead, storeDelete, updFn]
  · simp [stop, storeRead, storeDelete, updFn]

/-- C7: the selection callback sets the pending network, and a
successful submission does not clear it: a second free-text message
with no intervening track command appends to the same network, so a
fresh user submitting two texts ends with both addresses under the one
chosen network. -/
theorem pending_survives_submission (s : BotState) (uid : Nat)
    (n a b : String) (hp : s.pending uid = some n) (hn : n ≠ "")
    (h0 : storeRead s.store uid = none) :
    (∀ c, (handle_network_selection s uid c).1.pending uid = some c) ∧
    (handle_contract_address s uid a).1.pending uid = some n ∧
    storeRead (handle_contract_address
        (handle_contract_address s uid a).1 uid b).1.store uid
      = some [(n, [a, b])] := by
  refine ⟨?_, ?_, ?_⟩
  · intro c
    simp [handle_network_selection, updFn]
  · rw [(handle_text_step s uid n a hp hn).1]
    exact hp
  · have h1 := handle_text_step s uid n a hp hn
    rw [h0] at h1
    have hp1 : (handle_contract_address s uid a).1.pending uid = some n := by
      rw [h1.1]; exact hp
    have h2 := (handle_text_step (handle_contract_address s uid a).1
      uid n b hp1 hn).2
    rw [h1.2] at h2
    simpa [appendAddr] using h2

/-- C7 witness at a concrete state. -/
theorem pending_survives_submission_witness :
    (handle_contract_address
        { store := fun _ => none, pending := fun _ => some "solana" } 5
        "A1").1.pending 5 = some "solana" ∧
    storeRead (handle_contract_address (handle_contract_address
        { store := fun _ => none, pending := fun _ => some "solana" } 5
        "A1").1 5 "A2").1.store 5 = some [("solana", ["A1", "A2"])] := by
  have h := pending_survives_submission
    { store := fun _ => none, pending := fun _ => some "solana" } 5
    "solana" "A1" "A2" rfl (by decide) rfl
  exact ⟨h.2.1, h.2.2⟩

/-- C8 counterexample: with the empty string as callback data the
pending selection is set to the empty string, but the following
free-text submission is rejected by the falsy-value guard, so no
address is stored under the empty-string key — the claim fails for
that string. -/
theorem any_string_key_cex :
    (handle_network_selection initState 5 "").1.pending 5 = some "" ∧
    storeRead (handle_contract_address
        (handle_network_selection initState 5 "").1 5 "ADDR").1.store 5
      = none ∧
    (handle_contract_address
        (handle_network_selection initState 5 "").1 5 "ADDR").2
      = Reply.text "Please select a network first using /track." := by
  refine ⟨rfl, rfl, rfl⟩

/-- C8 amended: for every nonempty string delivered as the callback
data, the selection callback sets the pending network to it and a
following submission stores the address under that string key — the
store enforces no network enum. -/
theorem any_nonempty_string_key (s : BotState) (uid : Nat) (c a : String)
    (h0 : storeRead s.store uid = none) (hc : c ≠ "") :
    (handle_network_selection s uid c).1.pending uid = some c ∧
    storeRead (handle_contract_address
        (handle_network_selection s uid c).1 uid a).1.store uid
      = some [(c, [a])] := by
  have hp : (handle_network_selection s uid c).1.pending uid = some c := by
    simp [handle_network_selection, updFn]
  refine ⟨hp, ?_⟩
  have h1 := (handle_text_step (handle_network_selection s uid c).1
    uid c a hp hc).2
  rw [show storeRead (handle_network_selection s uid c).1.store uid = none
    from h0] at h1
  simpa [appendAddr] using h1

/-- C8 amended witness at a concrete arbitrary network string. -/
theorem any_nonempty_string_key_witness :
    (handle_network_selection initState 5 "dogecoin").1.pending 5
      = some "dogecoin" ∧
    storeRead (handle_contract_address
        (handle_network_selection initState 5 "dogecoin").1 5
        "ADDR").1.store 5 = some [("dogecoin", ["ADDR"])] :=
  any_nonempty_string_key initState 5 "dogecoin" "ADDR" rfl (by decide)

/-- C9: the track handler replies with the two-choice Solana/Sui menu
and changes nothing, and the start and help handlers reply with their
fixed texts and change nothing. -/
theorem track_start_help_no_effects (s : BotState) (uid : Nat) :
    (track s uid).1 = s ∧
    (track s uid).2 = Reply.menu "Which network would you like to track?"
      [("Solana", "solana"), ("Sui", "sui")] ∧
    (start s uid).1 = s ∧
    (start s uid).2 = Reply.text
      ("Welcome to the Blockchain Tracker Bot! Use /track to monitor transactions. "
        ++ "Use /help for other commands.") ∧
    (help_command s uid).1 = s ∧
    (help_command s uid).2 = Reply.text
      ("/start - Start the bot\n"
        ++ "/track - Start tracking a contract address\n"
        ++ "/status - View tracked addresses\n"
        ++ "/stop - Stop tracking a contract\n"
        ++ "/help - Show help message") :=
  ⟨rfl, rfl, rfl, rfl, rfl, rfl⟩

/-- C10: a user whose stored record is present but an empty mapping
gets the same not-tracking reply as a user with no record at all, and
never the listing. -/
theorem status_empty_record_like_absent (s t : BotState) (uid : Nat)
    (hs : storeRead s.store uid = some []) (ht : storeRead t.store uid = none) :
    (status s uid).2 = Reply.text "You are not tracking any contracts." ∧
    (status s uid).2 = (status t uid).2 := by
  simp [status, hs, ht]

/-- C10 witness at concrete states. -/
theorem status_empty_record_like_absent_witness :
    (status { store := fun u => if u = 5 then some [] else none,
              pending := fun _ => none } 5).2
      = Reply.text "You are not tracking any contracts." ∧
    (status { store := fun u => if u = 5 then some [] else none,
              pending := fun _ => none } 5).2
      = (status initState 5).2 :=
  status_empty_record_like_absent
    { store := fun u => if u = 5 then some [] else none,
      pending := fun _ => none } initState 5 rfl rfl

end ContractBot
